import Mathlib

/-!
Verification of the heuristic source-code structural analyzer
(`app/utils/code_analyzer.py`): language detection, per-language structural
parsing, issue scanning and complexity estimation.

Texts and lines are modelled as `List Char`; Python machine strings carry no
overflow concerns. Fallible Python code (attribute errors) is modelled with
`Except`. Python regular expressions are embedded as a small backtracking
engine over an explicit syntax tree; each pattern of the source is written
out as a `RE` value.  Capture groups do not affect match extent, so the
engine tracks only match extent; entity payloads extracted from capture
groups (names, parameter text) are not inspected by any property below and
are omitted from the records, which keep the line numbers and raw texts the
properties do talk about.
-/

set_option maxRecDepth 10000

/-- Python ASCII whitespace, the set matched by `str.strip` and `\s`
(the source never feeds non-ASCII whitespace to these). -/
def isPySpace (c : Char) : Bool :=
  c == ' ' || c == '\t' || c == '\n' || c == '\r' || c == '\u000b' || c == '\u000c'

/-- Python `str.strip()`: drop leading and trailing whitespace. -/
def pyStrip (l : List Char) : List Char :=
  ((l.dropWhile isPySpace).reverse.dropWhile isPySpace).reverse

/-- Number of newline characters, `s.count('\n')`. -/
def countNl : List Char → Nat
  | [] => 0
  | c :: t => (if c = '\n' then 1 else 0) + countNl t

/-- Python `s.split('\n')`: always returns at least one (possibly empty) piece. -/
def splitNl : List Char → List (List Char)
  | [] => [[]]
  | c :: t =>
    if c = '\n' then [] :: splitNl t
    else
      match splitNl t with
      | h :: rest => (c :: h) :: rest
      | [] => [[c]]

/-- Python substring test `needle in hay` (empty needle is contained). -/
def hasSub (needle : List Char) : List Char → Bool
  | [] => needle.isEmpty
  | c :: t => needle.isPrefixOf (c :: t) || hasSub needle t

/-- Helper for `countOccs`: `skip` counts positions still covered by the
previous match, reproducing the non-overlapping scan of `str.count`. -/
def countOccsAux (needle : List Char) : List Char → Nat → Nat
  | [], _ => 0
  | _ :: t, skip + 1 => countOccsAux needle t skip
  | c :: t, 0 =>
    if needle ≠ [] ∧ needle.isPrefixOf (c :: t) then
      1 + countOccsAux needle t (needle.length - 1)
    else
      countOccsAux needle t 0

/-- Python `hay.count(needle)`: number of non-overlapping occurrences, scanning left
to right (the source only counts non-empty needles). -/
def countOccs (needle hay : List Char) : Nat :=
  countOccsAux needle hay 0

/-- Python `\w` over ASCII: letters, digits and underscore. -/
def wordChar (c : Char) : Bool := c.isAlphanum || c == '_'

/-- The single-quote character, written by code point to keep literals plain. -/
def squote : Char := Char.ofNat 39

/-- The double-quote character, written by code point to keep literals plain. -/
def dquote : Char := Char.ofNat 34

/-- Regular-expression syntax used by the analyzer's patterns: character
classes, sequencing, preference-ordered alternation, greedy and lazy star,
and the end anchor. `(?:...)` grouping is structural; capture groups do not
change match extent and are not represented. -/
inductive RE where
  | eps : RE
  | cls : (Char → Bool) → RE
  | seq : RE → RE → RE
  | alt : RE → RE → RE
  | star : RE → RE
  | starl : RE → RE
  | eol : RE

/-- Single literal character. -/
def chrRE (c : Char) : RE := .cls (fun d => d == c)

/-- Sequence a list of regexes. -/
def seqs (l : List RE) : RE := l.foldr .seq .eps

/-- Case-sensitive literal. -/
def litRE (s : String) : RE := seqs (s.toList.map chrRE)

/-- Case-insensitive literal (`re.IGNORECASE`). -/
def litci (s : String) : RE :=
  seqs (s.toList.map (fun c => .cls (fun d => d.toLower == c.toLower)))

/-- Greedy `?`. -/
def optRE (r : RE) : RE := .alt r .eps

/-- Greedy `+`. -/
def plusRE (r : RE) : RE := .seq r (.star r)

/-- Backtracking matcher in continuation style.  Alternation prefers its left
branch, `star` prefers longer matches and `starl` shorter ones, exactly the
preference order of Python's `re`.  A star stops iterating when its body
consumes nothing, matching Python's empty-match rule.  `fuel` bounds the
call depth; callers pass fuel that amply covers pattern size times input
length, so the bound is never the deciding factor on the analyzed inputs. -/
def reM : Nat → RE → List Char → (List Char → Option (List Char)) → Option (List Char)
  | 0, _, _, _ => none
  | _ + 1, .eps, s, k => k s
  | _ + 1, .cls _, [], _ => none
  | _ + 1, .cls p, c :: t, k => if p c then k t else none
  | f + 1, .seq a b, s, k => reM f a s (fun t => reM f b t k)
  | f + 1, .alt a b, s, k =>
    match reM f a s k with
    | some t => some t
    | none => reM f b s k
  | f + 1, .star a, s, k =>
    match reM f a s (fun t => if t.length < s.length then reM f (.star a) t k else none) with
    | some t => some t
    | none => k s
  | f + 1, .starl a, s, k =>
    match k s with
    | some t => some t
    | none => reM f a s (fun t => if t.length < s.length then reM f (.starl a) t k else none)
  | _ + 1, .eol, s, k => if s = [] then k s else none

/-- Fuel that amply covers the patterns of the analyzer on input `s`. -/
def fuelFor (s : List Char) : Nat := 1000 * (s.length + 2)

/-- Anchored match at the start of `s` (Python `re.match`): length consumed,
if any match exists. -/
def reMatchStart (re : RE) (s : List Char) : Option Nat :=
  match reM (fuelFor s) re s some with
  | some t => some (s.length - t.length)
  | none => none

/-- Unanchored search (Python `re.search`), leftmost match: start offset and
length. -/
def reSearchAux (re : RE) : List Char → Nat → Option (Nat × Nat)
  | s, pos =>
    match reM (fuelFor s) re s some with
    | some t => some (pos, s.length - t.length)
    | none =>
      match s with
      | [] => none
      | _ :: tail => reSearchAux re tail (pos + 1)

/-- Python `re.search`. -/
def reSearch (re : RE) (s : List Char) : Option (Nat × Nat) := reSearchAux re s 0

/-- Helper for `findIter`: `skip` counts positions inside the previous match,
so matches are non-overlapping, as with `re.finditer`. -/
def findIterAux (re : RE) : List Char → Nat → Nat → List (Nat × Nat)
  | [], _, _ => []
  | _ :: t, pos, skip + 1 => findIterAux re t (pos + 1) skip
  | c :: t, pos, 0 =>
    match reMatchStart re (c :: t) with
    | some 0 => (pos, 0) :: findIterAux re t (pos + 1) 0
    | some (len + 1) => (pos, len + 1) :: findIterAux re t (pos + 1) len
    | none => findIterAux re t (pos + 1) 0

/-- Python `re.finditer`: the `(start, length)` pairs of all non-overlapping
leftmost matches (the analyzer's patterns never match the empty string, so
the zero-width case is moot). -/
def findIter (re : RE) (s : List Char) : List (Nat × Nat) := findIterAux re s 0 0

/-- The 1-based line number of the text offset `st`: newlines before it plus one,
exactly `code_content[:match.start()].count('\n') + 1`. -/
def lineOf (text : List Char) (st : Nat) : Nat := countNl (text.take st) + 1

/-- Word-character test on an optional character; out-of-text counts as
non-word, as for Python's `\b` at the ends of the text. -/
def wordOpt : Option Char → Bool
  | none => false
  | some c => wordChar c

/-- Pattern `\b` between an optional left character and an optional right character:
holds when exactly one side is a word character. -/
def boundaryAt (l r : Option Char) : Bool := wordOpt l != wordOpt r

/-- Helper for `countWB`, walking one character at a time with the previous
character and a skip counter for the inside of the previous match. -/
def countWBAux (lit : List Char) : List Char → Option Char → Nat → Nat
  | [], _, _ => 0
  | c :: t, _, skip + 1 => countWBAux lit t (some c) skip
  | c :: t, prev, 0 =>
    if lit ≠ [] ∧ lit.isPrefixOf (c :: t) ∧ boundaryAt prev lit.head? ∧
        boundaryAt lit.getLast? ((c :: t).drop lit.length).head? then
      1 + countWBAux lit t (some c) (lit.length - 1)
    else
      countWBAux lit t (some c) 0

/-- Number of matches of the word-boundary-delimited literal pattern
`\b lit \b` in `text`, with `re.findall`'s non-overlapping scan.  Every
decision-count pattern of the complexity estimator has this shape. -/
def countWB (lit : List Char) (text : List Char) : Nat := countWBAux lit text none 0

/-! ### The analyzer's regular expressions, one `RE` per source pattern -/

/-- Pattern `[a-zA-Z0-9_]`. -/
def identChar (c : Char) : Bool := c.isAlphanum || c == '_'

/-- Pattern `[a-zA-Z0-9_$]`. -/
def identDollar (c : Char) : Bool := c.isAlphanum || c == '_' || c == '$'

/-- Pattern `[a-zA-Z0-9_$.]`. -/
def identDollarDot (c : Char) : Bool := c.isAlphanum || c == '_' || c == '$' || c == '.'

/-- Pattern `[a-zA-Z0-9_<>]`. -/
def identAngle (c : Char) : Bool := c.isAlphanum || c == '_' || c == '<' || c == '>'

/-- Pattern `[a-zA-Z0-9_*]`. -/
def identStar (c : Char) : Bool := c.isAlphanum || c == '_' || c == '*'

/-- Pattern `[a-zA-Z0-9_, ]`. -/
def identComma (c : Char) : Bool := c.isAlphanum || c == '_' || c == ',' || c == ' '

/-- Pattern `.` matches every character except a newline. -/
def anyNoNl (c : Char) : Bool := c != '\n'

/-- Pattern `\s*` -/
def ws0 : RE := .star (.cls isPySpace)

/-- Pattern `\s+` -/
def ws1 : RE := plusRE (.cls isPySpace)

/-- Pattern `[a-zA-Z0-9_]+` -/
def ident1 : RE := plusRE (.cls identChar)

/-- Pattern `(.*)` (greedy) -/
def dotStar : RE := .star (.cls anyNoNl)

/-- Pattern `.*?` (lazy) -/
def dotStarL : RE := .starl (.cls anyNoNl)

/-- Python: `def\s+([a-zA-Z0-9_]+)\s*\((.*)\):` -/
def pyFuncRE : RE := seqs [litRE "def", ws1, ident1, ws0, chrRE '(', dotStar, chrRE ')', chrRE ':']

/-- Python: `class\s+([a-zA-Z0-9_]+)(?:\((.*)\))?:` -/
def pyClassRE : RE :=
  seqs [litRE "class", ws1, ident1, optRE (seqs [chrRE '(', dotStar, chrRE ')']), chrRE ':']

/-- Python: `([a-zA-Z0-9_]+)\s*=` -/
def pyVarRE : RE := seqs [ident1, ws0, chrRE '=']

/-- JavaScript: `function\s+([a-zA-Z0-9_$]+)\s*\((.*)\)` -/
def jsFuncRE : RE :=
  seqs [litRE "function", ws1, plusRE (.cls identDollar), ws0, chrRE '(', dotStar, chrRE ')']

/-- JavaScript: `(const|let|var)\s+([a-zA-Z0-9_$]+)\s*=\s*(?:\((.*)\)|([a-zA-Z0-9_$]+))\s*=>` -/
def jsArrowRE : RE :=
  seqs [.alt (litRE "const") (.alt (litRE "let") (litRE "var")), ws1, plusRE (.cls identDollar),
    ws0, chrRE '=', ws0,
    .alt (seqs [chrRE '(', dotStar, chrRE ')']) (plusRE (.cls identDollar)), ws0, litRE "=>"]

/-- JavaScript: `class\s+([a-zA-Z0-9_$]+)(?:\s+extends\s+([a-zA-Z0-9_$.]+))?` -/
def jsClassRE : RE :=
  seqs [litRE "class", ws1, plusRE (.cls identDollar),
    optRE (seqs [ws1, litRE "extends", ws1, plusRE (.cls identDollarDot)])]

/-- JavaScript: `(?:const|let|var)\s+([a-zA-Z0-9_$]+)\s*=` -/
def jsVarRE : RE :=
  seqs [.alt (litRE "const") (.alt (litRE "let") (litRE "var")), ws1, plusRE (.cls identDollar),
    ws0, chrRE '=']

/-- Java: `(?:public|private|protected)?\s+(?:static\s+)?(?:[a-zA-Z0-9_<>]+)\s+([a-zA-Z0-9_]+)\s*\((.*)\)` -/
def javaMethodRE : RE :=
  seqs [optRE (.alt (litRE "public") (.alt (litRE "private") (litRE "protected"))), ws1,
    optRE (seqs [litRE "static", ws1]), plusRE (.cls identAngle), ws1, ident1, ws0,
    chrRE '(', dotStar, chrRE ')']

/-- Java: `(?:public|private|protected)?\s+class\s+([a-zA-Z0-9_]+)(?:\s+extends\s+([a-zA-Z0-9_]+))?(?:\s+implements\s+([a-zA-Z0-9_, ]+))?` -/
def javaClassRE : RE :=
  seqs [optRE (.alt (litRE "public") (.alt (litRE "private") (litRE "protected"))), ws1,
    litRE "class", ws1, ident1, optRE (seqs [ws1, litRE "extends", ws1, ident1]),
    optRE (seqs [ws1, litRE "implements", ws1, plusRE (.cls identComma)])]

/-- Java: `(?:private|public|protected)?\s+(?:final\s+)?([a-zA-Z0-9_<>]+)\s+([a-zA-Z0-9_]+)\s*=` -/
def javaVarRE : RE :=
  seqs [optRE (.alt (litRE "private") (.alt (litRE "public") (litRE "protected"))), ws1,
    optRE (seqs [litRE "final", ws1]), plusRE (.cls identAngle), ws1, ident1, ws0, chrRE '=']

/-- C/C++: `(?:[a-zA-Z0-9_*]+\s+)+([a-zA-Z0-9_]+)\s*\((.*)\)\s*(?:const)?\s*(?:{|$)` -/
def cFuncRE : RE :=
  seqs [plusRE (seqs [plusRE (.cls identStar), ws1]), ident1, ws0, chrRE '(', dotStar, chrRE ')',
    ws0, optRE (litRE "const"), ws0, .alt (chrRE '\x7b') .eol]

/-- C/C++: `(?:class|struct)\s+([a-zA-Z0-9_]+)(?:\s*:\s*(?:public|private|protected)?\s*([a-zA-Z0-9_]+))?` -/
def cClassRE : RE :=
  seqs [.alt (litRE "class") (litRE "struct"), ws1, ident1,
    optRE (seqs [ws0, chrRE ':', ws0,
      optRE (.alt (litRE "public") (.alt (litRE "private") (litRE "protected"))), ws0, ident1])]

/-- C/C++: `(?:static\s+)?(?:const\s+)?([a-zA-Z0-9_*]+)\s+([a-zA-Z0-9_]+)(?:\s*=|;|\[)` -/
def cVarRE : RE :=
  seqs [optRE (seqs [litRE "static", ws1]), optRE (seqs [litRE "const", ws1]),
    plusRE (.cls identStar), ws1, ident1,
    .alt (seqs [ws0, chrRE '=']) (.alt (chrRE ';') (chrRE '['))]

/-- Go: `func\s+(?:\([^)]+\)\s+)?([a-zA-Z0-9_]+)\s*\((.*)\)` -/
def goFuncRE : RE :=
  seqs [litRE "func", ws1,
    optRE (seqs [chrRE '(', plusRE (.cls (fun c => c != ')')), chrRE ')', ws1]),
    ident1, ws0, chrRE '(', dotStar, chrRE ')']

/-- Go: `type\s+([a-zA-Z0-9_]+)\s+struct` -/
def goStructRE : RE := seqs [litRE "type", ws1, ident1, ws1, litRE "struct"]

/-- Go: `([a-zA-Z0-9_]+)\s*:=` -/
def goShortRE : RE := seqs [ident1, ws0, litRE ":="]

/-- Go: `var\s+([a-zA-Z0-9_]+)\s+([a-zA-Z0-9_]+)(?:\s*=)?` -/
def goVarRE : RE := seqs [litRE "var", ws1, ident1, ws1, ident1, optRE (seqs [ws0, chrRE '='])]

/-- Issue scan: `(?:TODO|FIXME|XXX|BUG|HACK)` with `re.IGNORECASE`. -/
def todoRE : RE :=
  .alt (litci "TODO") (.alt (litci "FIXME") (.alt (litci "XXX") (.alt (litci "BUG") (litci "HACK"))))

/-- Pattern `['\"]` -/
def quoteCls : RE := .cls (fun c => c == squote || c == dquote)

/-- Pattern `[^'\"]` -/
def notQuoteCls : RE := .cls (fun c => !(c == squote || c == dquote))

/-- Common tail of the credential patterns: `\s*=\s*['\"]([^'\"]+)['\"]`. -/
def credTail : RE := seqs [ws0, chrRE '=', ws0, quoteCls, plusRE notQuoteCls, quoteCls]

/-- Python `password\s*=\s*['\"]([^'\"]+)['\"]` with `re.IGNORECASE`. -/
def credPasswordRE : RE := .seq (litci "password") credTail

/-- Python `api[_-]?key\s*=\s*['\"]([^'\"]+)['\"]` with `re.IGNORECASE`. -/
def credApiKeyRE : RE :=
  .seq (seqs [litci "api", optRE (.cls (fun c => c == '_' || c == '-')), litci "key"]) credTail

/-- Python `secret\s*=\s*['\"]([^'\"]+)['\"]` with `re.IGNORECASE`. -/
def credSecretRE : RE := .seq (litci "secret") credTail

/-- Python `token\s*=\s*['\"]([^'\"]+)['\"]` with `re.IGNORECASE`. -/
def credTokenRE : RE := .seq (litci "token") credTail

/-- The four credential patterns, in the source's order. -/
def credREs : List RE := [credPasswordRE, credApiKeyRE, credSecretRE, credTokenRE]

/-- Python issue: `except\s*:` -/
def bareExceptRE : RE := seqs [litRE "except", ws0, chrRE ':']

/-- Python issue: `def\s+\w+\s*\(.*?=\s*(?:\[\]|{}|\{\}|\(\)).*?\):` (the second
and third alternatives of the group are the same brace pair). -/
def mutableDefaultRE : RE :=
  seqs [litRE "def", ws1, plusRE (.cls wordChar), ws0, chrRE '(', dotStarL, chrRE '=', ws0,
    .alt (litRE "[]") (.alt (litRE "\x7b\x7d") (.alt (litRE "\x7b\x7d") (litRE "()"))),
    dotStarL, chrRE ')', chrRE ':']

/-- JavaScript issue: `console\.log\(` -/
def consoleLogRE : RE := seqs [litRE "console", chrRE '.', litRE "log", chrRE '(']

/-- JavaScript issue: `[^=]=[^=]` — note this matches a single `=` flanked by
non-`=` characters and can never match inside `==`. -/
def looseEqRE : RE :=
  seqs [.cls (fun c => c != '='), chrRE '=', .cls (fun c => c != '=')]

/-- JavaScript issue filter: `[<>!=]=` — matches `<=`, `>=`, `!=` and `==`. -/
def strictNeighborRE : RE :=
  seqs [.cls (fun c => c == '<' || c == '>' || c == '!' || c == '='), chrRE '=']

/-! ### Data model -/

/-- The Python-level failures the analyzer can actually raise.  `_parse_java`
spells `line.endsWith(";")` in JavaScript; Python strings only provide
`endswith`, so evaluating that attribute raises `AttributeError`. -/
inductive PyErr where
  | attributeError : PyErr
deriving DecidableEq

/-- A structural entity (function, class, import or variable) extracted for a
line; the properties below only inspect line numbers, so the capture-group
payloads of the source (name, parameter text, type, value) are not kept. -/
structure Entity where
  line : Nat
deriving DecidableEq

/-- A comment entry: 1-based line number and the stripped line text. -/
structure CommentEntry where
  line : Nat
  text : List Char
deriving DecidableEq

/-- An issue finding: category tag and 1-based line number (the descriptive
message of the source is not inspected by any property and is omitted). -/
structure Issue where
  itype : String
  line : Nat
deriving DecidableEq

/-- The dictionary built by `parse_code`.  The field the source calls
`variables` is named `vars` here, `variables` being reserved in Lean. -/
structure ParseResult where
  language : String
  line_count : Nat
  functions : List Entity
  classes : List Entity
  imports : List Entity
  vars : List Entity
  comments : List CommentEntry
  potential_issues : List Issue
deriving DecidableEq

/-- The dictionary built by `analyze_complexity`.  The nesting counter can go
negative mid-scan, so depths are integers; the comment ratio is the exact
rational of the source's float division. -/
structure ComplexityReport where
  cyclomatic_complexity : Nat
  nesting_depth : Int
  function_count : Nat
  class_count : Nat
  line_count : Nat
  comment_ratio : Rat
deriving DecidableEq

/-- One entry of `language_patterns`: keyword list, optional comment marker
and the (unused by the algorithms) extension list. -/
structure Signature where
  keywords : List (List Char)
  comment : Option (List Char)
  extensions : List String
deriving DecidableEq

/-- Python `self.language_patterns`, in the source's insertion order. -/
def registry : List (String × Signature) :=
  [("python",
    ⟨["def ", "class ", "import ", "from ", "if ", "for ", "while ", "try:", "except:",
      "with "].map String.toList, some "#".toList, [".py", ".pyx", ".pyw"]⟩),
   ("javascript",
    ⟨["function", "const ", "let ", "var ", "import ", "export ", "class ", "=>", "if(",
      "for("].map String.toList, some "//".toList, [".js", ".jsx", ".ts", ".tsx"]⟩),
   ("java",
    ⟨["public ", "private ", "class ", "void ", "static ", "import ", "extends ",
      "implements "].map String.toList, some "//".toList, [".java"]⟩),
   ("c",
    ⟨["int ", "void ", "struct ", "char ", "return ", "include ", "define ",
      "typedef "].map String.toList, some "//".toList, [".c", ".h"]⟩),
   ("cpp",
    ⟨["class ", "namespace ", "template ", "std::", "cout ", "cin ",
      "vector<"].map String.toList, some "//".toList, [".cpp", ".hpp", ".cc", ".hh"]⟩),
   ("csharp",
    ⟨["using ", "namespace ", "class ", "public ", "private ", "void ",
      "static "].map String.toList, some "//".toList, [".cs"]⟩),
   ("ruby",
    ⟨["def ", "class ", "module ", "require ", "include ", "attr_",
      "end"].map String.toList, some "#".toList, [".rb"]⟩),
   ("go",
    ⟨["func ", "package ", "import ", "type ", "struct ", "interface ",
      "go "].map String.toList, some "//".toList, [".go"]⟩),
   ("php",
    ⟨["<?php", "function ", "class ", "public ", "private ", "echo ",
      "$"].map String.toList, some "//".toList, [".php"]⟩),
   ("swift",
    ⟨["func ", "class ", "struct ", "var ", "let ", "guard ",
      "import "].map String.toList, some "//".toList, [".swift"]⟩),
   ("rust",
    ⟨["fn ", "struct ", "impl ", "pub ", "let ", "mut ", "use ",
      "mod "].map String.toList, some "//".toList, [".rs"]⟩),
   ("kotlin",
    ⟨["fun ", "class ", "val ", "var ", "import ", "package ",
      "override "].map String.toList, some "//".toList, [".kt"]⟩),
   ("html",
    ⟨["<!DOCTYPE", "<html", "<head", "<body", "<div", "<span", "<a ",
      "<img "].map String.toList, some "<!--".toList, [".html", ".htm"]⟩),
   ("css",
    ⟨["\x7b", "\x7d", "margin:", "padding:", "color:", "@media",
      "display:"].map String.toList, some "/*".toList, [".css"]⟩),
   ("sql",
    ⟨["SELECT ", "FROM ", "WHERE ", "INSERT ", "UPDATE ", "DELETE ",
      "CREATE TABLE"].map String.toList, some "--".toList, [".sql"]⟩),
   ("bash",
    ⟨["#!/bin/", "function ", "if [", "for ", "while ", "echo ",
      "export "].map String.toList, some "#".toList, [".sh", ".bash"]⟩),
   ("powershell",
    ⟨["function ", "param(", "$", "if(", "foreach(",
      "Write-Host"].map String.toList, some "#".toList, [".ps1"]⟩),
   ("yaml",
    ⟨["---", "name:", "version:", "services:",
      "environment:"].map String.toList, some "#".toList, [".yml", ".yaml"]⟩),
   ("json",
    ⟨["\x7b", "\x7d", "\":", "[", "]"].map String.toList, none, [".json"]⟩),
   ("dockerfile",
    ⟨["FROM ", "RUN ", "CMD ", "ENTRYPOINT ", "COPY ", "ADD ",
      "ENV "].map String.toList, some "#".toList, ["Dockerfile"]⟩)]

/-- The registered language tags, in registration order. -/
def registryKeys : List String := registry.map (fun p => p.1)

/-- Python `self.language_patterns.get(language, {}).get("comment")`: the comment
marker of a registered language, `none` for `json` (whose marker is `null`)
and for unregistered tags (missing key). -/
def registryComment (lang : String) : Option (List Char) :=
  match registry.find? (fun p => p.1 == lang) with
  | some p => p.2.comment
  | none => none

/-! ### Language Detector (`detect_language`) -/

/-- The flat `+5` bonus rules of `detect_language`, an `elif` chain keyed on
the language being scored. -/
def bonusScore (lang : String) (text : List Char) : Nat :=
  if lang = "python" ∧ hasSub ("def ".toList) text ∧ hasSub (":".toList) text then 5
  else if lang = "javascript" ∧
      (hasSub ("function".toList) text ∨ hasSub ("=>".toList) text) ∧
      hasSub (";".toList) text then 5
  else if lang = "html" ∧ ("<".toList).isPrefixOf (pyStrip text) ∧
      hasSub (">".toList) text then 5
  else if lang = "java" ∧ hasSub ("public class".toList) text ∧
      hasSub (";".toList) text then 5
  else 0

/-- The `language_scores` dictionary: for every registered language, twice
the non-overlapping occurrence count of each keyword, plus the bonus. -/
def languageScores (text : List Char) : List (String × Nat) :=
  registry.map (fun p =>
    (p.1, (p.2.keywords.map (fun k => countOccs k text * 2)).sum + bonusScore p.1 text))

/-- Python's `max(items, key=score)`: fold that keeps the first maximal
element (a later element replaces the best only when strictly greater). -/
def pickMax (best : String × Nat) : List (String × Nat) → String × Nat
  | [] => best
  | q :: rest => pickMax (if best.2 < q.2 then q else best) rest

/-- Python `detect_language`: first-line fast paths, then keyword scoring. -/
def detect_language (text : List Char) : String :=
  let firstLine := (splitNl text).headD []
  if ("#!/bin/bash".toList).isPrefixOf firstLine ∨ ("#!/bin/sh".toList).isPrefixOf firstLine then
    "bash"
  else if ("#!/usr/bin/env python".toList).isPrefixOf firstLine then "python"
  else if ("#!/usr/bin/env node".toList).isPrefixOf firstLine then "javascript"
  else if ("<?php".toList).isPrefixOf firstLine then "php"
  else
    match languageScores text with
    | [] => "unknown"
    | p :: rest =>
      let m := pickMax p rest
      if 0 < m.2 then m.1 else "unknown"

/-- Modelled from the spec (§4.2 step 3), for comparison with
`detect_language`: compute the same scores, take the maximum score, return
`"unknown"` when it is `0`, otherwise the earliest-registered language whose
score equals the maximum. -/
def specDetectScored (text : List Char) : String :=
  let scores := languageScores text
  let m := (scores.map (fun p => p.2)).foldl max 0
  if m = 0 then "unknown"
  else
    match scores.find? (fun p => p.2 == m) with
    | some p => p.1
    | none => "unknown"

/-! ### Structural Parser (`parse_code` and its per-language classifiers) -/

/-- Truthiness test `comment_marker and stripped.startswith(comment_marker)`:
false when the marker is absent. -/
def cmMatches (cm : Option (List Char)) (s : List Char) : Bool :=
  match cm with
  | some m => m.isPrefixOf s
  | none => false

/-- Append a function entity for line `n`. -/
def addFn (n : Nat) (r : ParseResult) : ParseResult :=
  { r with functions := r.functions ++ [⟨n⟩] }

/-- Append a class/struct entity for line `n`. -/
def addClass (n : Nat) (r : ParseResult) : ParseResult :=
  { r with classes := r.classes ++ [⟨n⟩] }

/-- Append an import/include entity for line `n`. -/
def addImport (n : Nat) (r : ParseResult) : ParseResult :=
  { r with imports := r.imports ++ [⟨n⟩] }

/-- Append a variable entity for line `n`. -/
def addVar (n : Nat) (r : ParseResult) : ParseResult :=
  { r with vars := r.vars ++ [⟨n⟩] }

/-- Python `_parse_python`: `if`/`elif` chain over the stripped line. -/
def parsePythonLine (line : List Char) (n : Nat) (r : ParseResult) : ParseResult :=
  if ("def ".toList).isPrefixOf line then
    if (reMatchStart pyFuncRE line).isSome then addFn n r else r
  else if ("class ".toList).isPrefixOf line then
    if (reMatchStart pyClassRE line).isSome then addClass n r else r
  else if ("import ".toList).isPrefixOf line ∨ ("from ".toList).isPrefixOf line then
    addImport n r
  else if hasSub ("=".toList) line ∧
      ¬(("if ".toList).isPrefixOf line ∨ ("elif ".toList).isPrefixOf line ∨
        ("while ".toList).isPrefixOf line) then
    if (reMatchStart pyVarRE line).isSome then addVar n r else r
  else r

/-- Python `_parse_javascript` (also used for the `typescript` tag). -/
def parseJavascriptLine (line : List Char) (n : Nat) (r : ParseResult) : ParseResult :=
  if hasSub ("function ".toList) line then
    if (reSearch jsFuncRE line).isSome then addFn n r else r
  else if hasSub ("=>".toList) line ∧ hasSub ("=".toList) line then
    if (reSearch jsArrowRE line).isSome then addFn n r else r
  else if ("class ".toList).isPrefixOf line then
    if (reMatchStart jsClassRE line).isSome then addClass n r else r
  else if ("import ".toList).isPrefixOf line then
    addImport n r
  else if hasSub ("const ".toList) line ∨ hasSub ("let ".toList) line ∨
      hasSub ("var ".toList) line then
    if (reMatchStart jsVarRE line).isSome then addVar n r else r
  else r

/-- Python `_parse_java`.  The first branch evaluates
`method_match and not line.endsWith(";")`: whenever `method_match` is truthy
the conjunction goes on to call `endsWith`, which Python strings do not have
(the method is `endswith`), so an `AttributeError` escapes.  The variable
check at the end is an independent `if`, not part of the `elif` chain. -/
def parseJavaLine (line : List Char) (n : Nat) (r : ParseResult) : Except PyErr ParseResult :=
  if (reSearch javaMethodRE line).isSome then .error .attributeError
  else
    let r1 :=
      if hasSub ("class ".toList) line then
        if (reSearch javaClassRE line).isSome then addClass n r else r
      else if ("import ".toList).isPrefixOf line then addImport n r
      else r
    .ok (if (reSearch javaVarRE line).isSome then addVar n r1 else r1)

/-- Python `_parse_c_cpp`.  The variable check is an independent `if` after the
`elif` chain, guarded only by the absence of a function-pattern match. -/
def parseCCppLine (line : List Char) (n : Nat) (r : ParseResult) : ParseResult :=
  let fm := (reSearch cFuncRE line).isSome
  let r1 :=
    if fm ∧ ¬((";".toList).isSuffixOf line) then addFn n r
    else if hasSub ("class ".toList) line ∨ hasSub ("struct ".toList) line then
      if (reSearch cClassRE line).isSome then addClass n r else r
    else if ("#include".toList).isPrefixOf line then addImport n r
    else r
  if (reSearch cVarRE line).isSome ∧ ¬fm then addVar n r1 else r1

/-- Python `_parse_go`. -/
def parseGoLine (line : List Char) (n : Nat) (r : ParseResult) : ParseResult :=
  if ("func ".toList).isPrefixOf line then
    if (reSearch goFuncRE line).isSome then addFn n r else r
  else if hasSub ("type ".toList) line ∧ hasSub ("struct".toList) line then
    if (reSearch goStructRE line).isSome then addClass n r else r
  else if ("import ".toList).isPrefixOf line then
    addImport n r
  else if hasSub (":=".toList) line then
    if (reSearch goShortRE line).isSome then addVar n r else r
  else if hasSub ("var ".toList) line then
    if (reSearch goVarRE line).isSome then addVar n r else r
  else r

/-- The body of `parse_code`'s per-line loop: skip blank lines, record a
comment when the stripped line starts with the language's comment marker
(and go to the next line), otherwise dispatch on the language tag; tags
without a classifier fall through untouched. -/
def processLine (language : String) (cm : Option (List Char)) (num : Nat) (line : List Char)
    (r : ParseResult) : Except PyErr ParseResult :=
  let stripped := pyStrip line
  if stripped = [] then .ok r
  else if cmMatches cm stripped then
    .ok { r with comments := r.comments ++ [⟨num, stripped⟩] }
  else if language = "python" then .ok (parsePythonLine stripped num r)
  else if language = "javascript" ∨ language = "typescript" then
    .ok (parseJavascriptLine stripped num r)
  else if language = "java" then parseJavaLine stripped num r
  else if language = "c" ∨ language = "cpp" then .ok (parseCCppLine stripped num r)
  else if language = "go" then .ok (parseGoLine stripped num r)
  else .ok r

/-- The `for i, line in enumerate(lines)` loop: `idx` is the 0-based index of
the next line, so line numbers are `idx + 1`. -/
def runLines (language : String) (cm : Option (List Char)) :
    Nat → List (List Char) → ParseResult → Except PyErr ParseResult
  | _, [], r => .ok r
  | idx, line :: rest, r =>
    match processLine language cm (idx + 1) line r with
    | .error e => .error e
    | .ok r1 => runLines language cm (idx + 1) rest r1

/-! ### Issue Scanner (`_check_for_issues`) -/

/-- TODO-marker findings: one `"todo"` finding per case-insensitive match,
at the line of the match offset. -/
def todoFindings (text : List Char) : List Issue :=
  (findIter todoRE text).map (fun m => ⟨"todo", lineOf text m.1⟩)

/-- Hardcoded-credential findings: the four patterns in order, one
`"security"` finding per match. -/
def credFindings (text : List Char) : List Issue :=
  credREs.flatMap (fun p => (findIter p text).map (fun m => ⟨"security", lineOf text m.1⟩))

/-- Python-specific findings: bare `except:` (style) then mutable default
arguments (bug). -/
def pythonIssues (text : List Char) : List Issue :=
  (findIter bareExceptRE text).map (fun m => (⟨"style", lineOf text m.1⟩ : Issue)) ++
    (findIter mutableDefaultRE text).map (fun m => (⟨"bug", lineOf text m.1⟩ : Issue))

/-- JavaScript `console.log` findings (debug). -/
def consoleFindings (text : List Char) : List Issue :=
  (findIter consoleLogRE text).map (fun m => ⟨"debug", lineOf text m.1⟩)

/-- JavaScript loose-equality findings: for each `[^=]=[^=]` match, look up
the stripped source line of the match offset and keep a `"style"` finding
when the line contains `=`, has no `[<>!=]=` match and is not a `//`
comment. -/
def looseEqFindings (text : List Char) : List Issue :=
  (findIter looseEqRE text).filterMap (fun m =>
    let ln := lineOf text m.1
    let line := pyStrip ((splitNl text).getD (ln - 1) [])
    if hasSub ("=".toList) line ∧ reSearch strictNeighborRE line = none ∧
        ¬(("//".toList).isPrefixOf (pyStrip line)) then
      some ⟨"style", ln⟩
    else none)

/-- Python `_check_for_issues`: cross-language rules, then the language-specific
rules, extending `potential_issues`. -/
def checkForIssues (text : List Char) (language : String) (r : ParseResult) : ParseResult :=
  { r with potential_issues :=
      r.potential_issues ++ todoFindings text ++ credFindings text ++
        (if language = "python" then pythonIssues text
         else if language = "javascript" ∨ language = "typescript" then
           consoleFindings text ++ looseEqFindings text
         else []) }

/-- Python `parse_code`: build the empty result with the line count, short-circuit
for `"unknown"`, otherwise scan the lines and run the issue scan. -/
def emptyResult (language : String) (text : List Char) : ParseResult :=
  ⟨language, countNl text + 1, [], [], [], [], [], []⟩

/-- Python `parse_code text language`. -/
def parse_code (text : List Char) (language : String) : Except PyErr ParseResult :=
  let result := emptyResult language text
  if language = "unknown" then .ok result
  else
    match runLines language (registryComment language) 0 (splitNl text) result with
    | .error e => .error e
    | .ok r => .ok (checkForIssues text language r)

/-! ### Complexity Estimator (`analyze_complexity`) -/

/-- The decision-count literals for a language family; every source pattern
is a `\b`-delimited literal, counted by `countWB`. -/
def jsDecisionLits : List (List Char) :=
  ["if", "else if", "for", "while", "case", "catch", "&&", "||"].map String.toList

/-- Python `decision_patterns.get(language, decision_patterns.get("javascript"))`. -/
def decisionLitsFor (language : String) : List (List Char) :=
  if language = "python" then
    ["if", "elif", "for", "while", "except", "and", "or"].map String.toList
  else if language = "javascript" then jsDecisionLits
  else if language = "java" then jsDecisionLits
  else if language = "c" then
    ["if", "else if", "for", "while", "case", "&&", "||"].map String.toList
  else if language = "cpp" then jsDecisionLits
  else if language = "go" then
    ["if", "else if", "for", "switch", "case", "&&", "||"].map String.toList
  else jsDecisionLits

/-- The nesting-depth scan: skip blank and comment-marker lines; compare each
remaining line's leading-whitespace width with the previous one, increment
the depth on an increase, decrement it by half the decrease (integer
division) on a decrease, and track the maximum.  On a non-blank line the
indent regex `^(\s*)[^\s]` always matches with group 1 the maximal leading
whitespace, which is `takeWhile isPySpace`. -/
def nestGo (cm : Option (List Char)) :
    List (List Char) → Int → Int → Nat → Int
  | [], maxDepth, _, _ => maxDepth
  | line :: rest, maxDepth, cur, prev =>
    if pyStrip line = [] ∨ cmMatches cm (pyStrip line) then
      nestGo cm rest maxDepth cur prev
    else
      let indent := (line.takeWhile isPySpace).length
      let cur1 :=
        if prev < indent then cur + 1
        else if indent < prev then cur - (((prev - indent) / 2 : Nat) : Int)
        else cur
      nestGo cm rest (max maxDepth cur1) cur1 indent

/-- Maximum nesting depth of the text's lines. -/
def nestingScan (cm : Option (List Char)) (lines : List (List Char)) : Int :=
  nestGo cm lines 0 0 0

/-- Python `analyze_complexity text language`: zeroed report (except the line count)
for `"unknown"`, otherwise function/class/comment counts from `parse_code`
(whose java `AttributeError` propagates), the keyword-count cyclomatic proxy
and the indentation nesting proxy. -/
def analyze_complexity (text : List Char) (language : String) : Except PyErr ComplexityReport :=
  if language = "unknown" then .ok ⟨0, 0, 0, 0, countNl text + 1, 0⟩
  else
    let cm := registryComment language
    match parse_code text language with
    | .error e => .error e
    | .ok parsed =>
      let lineCount := countNl text + 1
      let ratio : Rat :=
        if 0 < lineCount then (parsed.comments.length : Rat) / (lineCount : Rat) else 0
      let cyc := 1 + ((decisionLitsFor language).map (fun p => countWB p text)).sum
      .ok ⟨cyc, nestingScan cm (splitNl text), parsed.functions.length, parsed.classes.length,
        lineCount, ratio⟩

deriving instance DecidableEq for Except

/-! ### Helper notions for the claims -/

/-- Total number of structural entities (functions, classes, imports,
variables) recorded in a result. -/
def entityCount (r : ParseResult) : Nat :=
  r.functions.length + r.classes.length + r.imports.length + r.vars.length

/-- Number of entities recorded by the function/class-struct/import `elif`
chain alone. -/
def fciCount (r : ParseResult) : Nat :=
  r.functions.length + r.classes.length + r.imports.length

/-- Line numbers of all structural entities of a result. -/
def entityLineNums (r : ParseResult) : List Nat :=
  r.functions.map Entity.line ++ r.classes.map Entity.line ++ r.imports.map Entity.line ++
    r.vars.map Entity.line

/-- Line numbers of all comment entries of a result. -/
def commentLineNums (r : ParseResult) : List Nat :=
  r.comments.map CommentEntry.line

/-! ### Claim theorems -/

/-- Claim C1 (code bug).  The claim says `parse_code` returns a result
without raising for every input and language.  On the single Java line
`public void foo()` the method pattern matches, so `_parse_java` evaluates
`line.endsWith(";")` — a JavaScript spelling; Python strings only have
`endswith` — and an `AttributeError` propagates out of `parse_code`. -/
theorem parse_code_java_raises_attributeError :
    parse_code ("public void foo()".toList) "java" = .error .attributeError := by
  decide

/-- Claim C2 (code bug).  The claim (and the source's own comments) say a
loose-equality line such as `x == y` in javascript input yields a `"style"`
finding.  In fact the scan regex `[^=]=[^=]` matches only a single `=`
flanked by non-`=` characters, so it never fires on `==`; moreover the
line filter `[<>!=]=` discards every line containing `==`.  So `x == y`
produces no finding at all, while the plain assignment `a = 1;` does. -/
theorem looseEq_finding_inverted :
    parse_code ("x == y".toList) "javascript" =
      .ok ⟨"javascript", 1, [], [], [], [], [], []⟩ ∧
    parse_code ("a = 1;".toList) "javascript" =
      .ok ⟨"javascript", 1, [], [], [], [], [], [⟨"style", 1⟩]⟩ := by
  constructor
  · decide
  · decide

/-- Claim C3, counterexample.  The claim says `estimate(T, "unknown")`
returns all-zero metrics; already at `T = ""` the report's `line_count` is
`1`, not `0`. -/
theorem unknown_estimate_line_count_not_zero :
    analyze_complexity [] "unknown" = .ok ⟨0, 0, 0, 0, 1, 0⟩ ∧ (1 : Nat) ≠ 0 := by
  constructor
  · decide
  · decide

/-- Claim C3, amended: for every text, `parse_code` under `"unknown"`
returns the empty inventory with only the line count populated, and
`analyze_complexity` under `"unknown"` returns the all-zero report except
for `line_count`, which is the newline count plus one. -/
theorem unknown_short_circuit (text : List Char) :
    parse_code text "unknown" = .ok (emptyResult "unknown" text) ∧
    analyze_complexity text "unknown" = .ok ⟨0, 0, 0, 0, countNl text + 1, 0⟩ := by
  constructor
  · rw [parse_code]
    simp
  · rw [analyze_complexity]
    simp

/-- Claim C4, counterexample.  On the single C++ line `struct Foo x = y;`
the classifier records the line both as a class (`struct Foo`) and as a
variable (`Foo x =`): two entity kinds for one line, because the variable
check runs outside the `elif` chain. -/
theorem ccpp_line_double_recorded :
    parseCCppLine ("struct Foo x = y;".toList) 1 (emptyResult "cpp" []) =
      { emptyResult "cpp" [] with classes := [⟨1⟩], vars := [⟨1⟩] } := by
  decide

/-- Claim C4, amended: the python, javascript/typescript and go classifiers
append at most one entity per line (first matching rule wins).  The java and
c/cpp classifiers run their variable rule independently of the
function/class/import chain (c/cpp suppressing it only when the function
pattern matched), so those record at most one function/class/import entry
plus possibly one variable entry for the same line. -/
theorem classifier_entity_bounds (line : List Char) (n : Nat) (r : ParseResult) :
    entityCount (parsePythonLine line n r) ≤ entityCount r + 1 ∧
    entityCount (parseJavascriptLine line n r) ≤ entityCount r + 1 ∧
    entityCount (parseGoLine line n r) ≤ entityCount r + 1 ∧
    fciCount (parseCCppLine line n r) ≤ fciCount r + 1 ∧
    (parseCCppLine line n r).vars.length ≤ r.vars.length + 1 ∧
    (match parseJavaLine line n r with
     | .ok r1 => fciCount r1 ≤ fciCount r + 1 ∧ r1.vars.length ≤ r.vars.length + 1
     | .error _ => True) := by
  refine ⟨?_, ?_, ?_, ?_, ?_, ?_⟩
  · simp only [parsePythonLine]
    repeat' split
    all_goals simp [entityCount, addFn, addClass, addImport, addVar]
    all_goals omega
  · simp only [parseJavascriptLine]
    repeat' split
    all_goals simp [entityCount, addFn, addClass, addImport, addVar]
    all_goals omega
  · simp only [parseGoLine]
    repeat' split
    all_goals simp [entityCount, addFn, addClass, addImport, addVar]
    all_goals omega
  · simp only [parseCCppLine]
    repeat' split
    all_goals simp [fciCount, addFn, addClass, addImport, addVar]
    all_goals omega
  · simp only [parseCCppLine]
    repeat' split
    all_goals simp [addFn, addClass, addImport, addVar]
  · simp only [parseJavaLine]
    split
    · rename_i r1 heq
      split at heq
      · simp at heq
      · rw [Except.ok.injEq] at heq
        subst heq
        repeat' split
        all_goals simp [fciCount, addFn, addClass, addImport, addVar]
        all_goals omega
    · trivial

/-! ### Field-preservation lemmas for the parser -/

theorem checkForIssues_functions (t : List Char) (l : String) (r : ParseResult) :
    (checkForIssues t l r).functions = r.functions := rfl

theorem checkForIssues_classes (t : List Char) (l : String) (r : ParseResult) :
    (checkForIssues t l r).classes = r.classes := rfl

theorem checkForIssues_imports (t : List Char) (l : String) (r : ParseResult) :
    (checkForIssues t l r).imports = r.imports := rfl

theorem checkForIssues_vars (t : List Char) (l : String) (r : ParseResult) :
    (checkForIssues t l r).vars = r.vars := rfl

theorem checkForIssues_comments (t : List Char) (l : String) (r : ParseResult) :
    (checkForIssues t l r).comments = r.comments := rfl

theorem checkForIssues_line_count (t : List Char) (l : String) (r : ParseResult) :
    (checkForIssues t l r).line_count = r.line_count := rfl

theorem mem_ent_addFn (m n : Nat) (r : ParseResult) :
    m ∈ entityLineNums (addFn n r) ↔ m ∈ entityLineNums r ∨ m = n := by
  simp only [entityLineNums, addFn, List.map_append, List.map_cons, List.map_nil,
    List.mem_append, List.mem_singleton]
  tauto

theorem mem_ent_addClass (m n : Nat) (r : ParseResult) :
    m ∈ entityLineNums (addClass n r) ↔ m ∈ entityLineNums r ∨ m = n := by
  simp only [entityLineNums, addClass, List.map_append, List.map_cons, List.map_nil,
    List.mem_append, List.mem_singleton]
  tauto

theorem mem_ent_addImport (m n : Nat) (r : ParseResult) :
    m ∈ entityLineNums (addImport n r) ↔ m ∈ entityLineNums r ∨ m = n := by
  simp only [entityLineNums, addImport, List.map_append, List.map_cons, List.map_nil,
    List.mem_append, List.mem_singleton]
  tauto

theorem mem_ent_addVar (m n : Nat) (r : ParseResult) :
    m ∈ entityLineNums (addVar n r) ↔ m ∈ entityLineNums r ∨ m = n := by
  simp only [entityLineNums, addVar, List.map_append, List.map_cons, List.map_nil,
    List.mem_append, List.mem_singleton]
  tauto

/-- The facts all pure classifiers share: comments and line count untouched,
and any new entity line number equals the scanned line's number. -/
def ClassifierFacts (f : List Char → Nat → ParseResult → ParseResult) : Prop :=
  ∀ line n r, (f line n r).comments = r.comments ∧ (f line n r).line_count = r.line_count ∧
    ∀ m, m ∈ entityLineNums (f line n r) → m ∈ entityLineNums r ∨ m = n

theorem parsePythonLine_facts : ClassifierFacts parsePythonLine := by
  intro line n r
  simp only [parsePythonLine]
  repeat' split
  all_goals refine ⟨rfl, rfl, fun m hm => ?_⟩
  all_goals simp only [mem_ent_addFn, mem_ent_addClass, mem_ent_addImport, mem_ent_addVar] at hm
  all_goals tauto

theorem parseJavascriptLine_facts : ClassifierFacts parseJavascriptLine := by
  intro line n r
  simp only [parseJavascriptLine]
  repeat' split
  all_goals refine ⟨rfl, rfl, fun m hm => ?_⟩
  all_goals simp only [mem_ent_addFn, mem_ent_addClass, mem_ent_addImport, mem_ent_addVar] at hm
  all_goals tauto

theorem parseGoLine_facts : ClassifierFacts parseGoLine := by
  intro line n r
  simp only [parseGoLine]
  repeat' split
  all_goals refine ⟨rfl, rfl, fun m hm => ?_⟩
  all_goals simp only [mem_ent_addFn, mem_ent_addClass, mem_ent_addImport, mem_ent_addVar] at hm
  all_goals tauto

theorem parseCCppLine_facts : ClassifierFacts parseCCppLine := by
  intro line n r
  simp only [parseCCppLine]
  repeat' split
  all_goals refine ⟨rfl, rfl, fun m hm => ?_⟩
  all_goals simp only [mem_ent_addFn, mem_ent_addClass, mem_ent_addImport, mem_ent_addVar] at hm
  all_goals tauto

theorem parseJavaLine_facts (line : List Char) (n : Nat) (r r1 : ParseResult)
    (h : parseJavaLine line n r = .ok r1) :
    r1.comments = r.comments ∧ r1.line_count = r.line_count ∧
    ∀ m, m ∈ entityLineNums r1 → m ∈ entityLineNums r ∨ m = n := by
  rw [parseJavaLine] at h
  split at h
  · simp at h
  · rw [Except.ok.injEq] at h
    subst h
    repeat' split
    all_goals refine ⟨rfl, rfl, fun m hm => ?_⟩
    all_goals simp only [mem_ent_addFn, mem_ent_addClass, mem_ent_addImport, mem_ent_addVar] at hm
    all_goals tauto

/-- What one loop step can do: keep the line count; and either leave the
comments untouched while any new entity line number is the scanned line's
number, or leave the entities untouched and append exactly that line's
comment entry. -/
theorem processLine_shape (language : String) (cm : Option (List Char)) (num : Nat)
    (line : List Char) (r r1 : ParseResult) (h : processLine language cm num line r = .ok r1) :
    r1.line_count = r.line_count ∧
    ((r1.comments = r.comments ∧ ∀ m, m ∈ entityLineNums r1 → m ∈ entityLineNums r ∨ m = num) ∨
     (entityLineNums r1 = entityLineNums r ∧ r1.comments = r.comments ++ [⟨num, pyStrip line⟩])) := by
  rw [processLine] at h
  repeat' split at h
  all_goals try (rw [Except.ok.injEq] at h; subst h)
  all_goals first
    | exact ⟨rfl, Or.inr ⟨rfl, rfl⟩⟩
    | exact ⟨rfl, Or.inl ⟨rfl, fun m hm => Or.inl hm⟩⟩
    | exact ⟨(parsePythonLine_facts _ num r).2.1,
        Or.inl ⟨(parsePythonLine_facts _ num r).1, (parsePythonLine_facts _ num r).2.2⟩⟩
    | exact ⟨(parseJavascriptLine_facts _ num r).2.1,
        Or.inl ⟨(parseJavascriptLine_facts _ num r).1, (parseJavascriptLine_facts _ num r).2.2⟩⟩
    | exact ⟨(parseCCppLine_facts _ num r).2.1,
        Or.inl ⟨(parseCCppLine_facts _ num r).1, (parseCCppLine_facts _ num r).2.2⟩⟩
    | exact ⟨(parseGoLine_facts _ num r).2.1,
        Or.inl ⟨(parseGoLine_facts _ num r).1, (parseGoLine_facts _ num r).2.2⟩⟩
    | exact ⟨(parseJavaLine_facts _ num r r1 h).2.1,
        Or.inl ⟨(parseJavaLine_facts _ num r r1 h).1, (parseJavaLine_facts _ num r r1 h).2.2⟩⟩

/-- The loop never changes the line count. -/
theorem runLines_line_count (language : String) (cm : Option (List Char)) :
    ∀ (lines : List (List Char)) (idx : Nat) (r r1 : ParseResult),
      runLines language cm idx lines r = .ok r1 → r1.line_count = r.line_count := by
  intro lines
  induction lines with
  | nil =>
    intro idx r r1 h
    rw [runLines, Except.ok.injEq] at h
    rw [h]
  | cons l rest ih =>
    intro idx r r1 h
    rw [runLines] at h
    split at h
    · simp at h
    · rename_i r2 heq
      rw [ih (idx + 1) r2 r1 h, (processLine_shape language cm (idx + 1) l r r2 heq).1]

/-- Each line appends at most one comment entry. -/
theorem runLines_comments_len (language : String) (cm : Option (List Char)) :
    ∀ (lines : List (List Char)) (idx : Nat) (r r1 : ParseResult),
      runLines language cm idx lines r = .ok r1 →
      r1.comments.length ≤ r.comments.length + lines.length := by
  intro lines
  induction lines with
  | nil =>
    intro idx r r1 h
    rw [runLines, Except.ok.injEq] at h
    rw [h]
    simp
  | cons l rest ih =>
    intro idx r r1 h
    rw [runLines] at h
    split at h
    · simp at h
    · rename_i r2 heq
      have h2 := ih (idx + 1) r2 r1 h
      rcases (processLine_shape language cm (idx + 1) l r r2 heq).2 with hc | hc
      · rw [hc.1] at h2
        simp only [List.length_cons]
        omega
      · rw [hc.2] at h2
        simp only [List.length_append, List.length_cons, List.length_nil] at h2 ⊢
        omega

/-- Invariant of the scan: starting from a state whose comment and entity
line numbers are at most `idx` and disjoint, the final comment and entity
line numbers are bounded by the last line number and stay disjoint — the
comment rule and the classifiers never fire on the same line. -/
theorem runLines_separation (language : String) (cm : Option (List Char)) :
    ∀ (lines : List (List Char)) (idx : Nat) (r r1 : ParseResult),
      runLines language cm idx lines r = .ok r1 →
      (∀ m ∈ commentLineNums r, m ≤ idx) →
      (∀ m ∈ entityLineNums r, m ≤ idx) →
      (∀ m, m ∈ commentLineNums r → m ∉ entityLineNums r) →
      (∀ m ∈ commentLineNums r1, m ≤ idx + lines.length) ∧
      (∀ m ∈ entityLineNums r1, m ≤ idx + lines.length) ∧
      (∀ m, m ∈ commentLineNums r1 → m ∉ entityLineNums r1) := by
  intro lines
  induction lines with
  | nil =>
    intro idx r r1 h hc he hsep
    rw [runLines, Except.ok.injEq] at h
    subst h
    exact ⟨fun m hm => by simpa using hc m hm, fun m hm => by simpa using he m hm, hsep⟩
  | cons l rest ih =>
    intro idx r r1 h hc he hsep
    rw [runLines] at h
    split at h
    · simp at h
    · rename_i r2 heq
      have hshape := (processLine_shape language cm (idx + 1) l r r2 heq).2
      have hstep :
          (∀ m ∈ commentLineNums r2, m ≤ idx + 1) ∧
          (∀ m ∈ entityLineNums r2, m ≤ idx + 1) ∧
          (∀ m, m ∈ commentLineNums r2 → m ∉ entityLineNums r2) := by
        rcases hshape with hcase | hcase
        · have hcm : commentLineNums r2 = commentLineNums r := by
            rw [commentLineNums, hcase.1, commentLineNums]
          refine ⟨fun m hm => ?_, fun m hm => ?_, fun m hm hme => ?_⟩
          · rw [hcm] at hm
            exact Nat.le_succ_of_le (hc m hm)
          · rcases hcase.2 m hm with hold | hnew
            · exact Nat.le_succ_of_le (he m hold)
            · omega
          · rw [hcm] at hm
            rcases hcase.2 m hme with hold | hnew
            · exact hsep m hm hold
            · have := hc m hm
              omega
        · have hcm : commentLineNums r2 = commentLineNums r ++ [idx + 1] := by
            rw [commentLineNums, hcase.2]
            simp [commentLineNums]
          refine ⟨fun m hm => ?_, fun m hm => ?_, fun m hm hme => ?_⟩
          · rw [hcm, List.mem_append, List.mem_singleton] at hm
            rcases hm with hold | hnew
            · exact Nat.le_succ_of_le (hc m hold)
            · omega
          · rw [hcase.1] at hm
            exact Nat.le_succ_of_le (he m hm)
          · rw [hcase.1] at hme
            rw [hcm, List.mem_append, List.mem_singleton] at hm
            rcases hm with hold | hnew
            · exact hsep m hold hme
            · have := he m hme
              omega
      have hfin := ih (idx + 1) r2 r1 h hstep.1 hstep.2.1 hstep.2.2
      refine ⟨fun m hm => ?_, fun m hm => ?_, hfin.2.2⟩
      · have := hfin.1 m hm
        simp only [List.length_cons]
        omega
      · have := hfin.2.1 m hm
        simp only [List.length_cons]
        omega

theorem commentLineNums_checkForIssues (t : List Char) (l : String) (r : ParseResult) :
    commentLineNums (checkForIssues t l r) = commentLineNums r := rfl

theorem entityLineNums_checkForIssues (t : List Char) (l : String) (r : ParseResult) :
    entityLineNums (checkForIssues t l r) = entityLineNums r := rfl

/-- Claim C8 (confirmed).  Whenever `parse_code` or `analyze_complexity`
returns a result, its `line_count` is the number of newline characters plus
one — in particular `1` for the empty string. -/
theorem line_count_is_newlines_plus_one (text : List Char) (lang : String) :
    (∀ r, parse_code text lang = .ok r → r.line_count = countNl text + 1) ∧
    (∀ c, analyze_complexity text lang = .ok c → c.line_count = countNl text + 1) := by
  constructor
  · intro r h
    rw [parse_code] at h
    split at h
    · rw [Except.ok.injEq] at h
      subst h
      rfl
    · split at h
      · simp at h
      · rename_i r2 heq
        rw [Except.ok.injEq] at h
        subst h
        rw [checkForIssues_line_count, runLines_line_count lang _ _ _ _ _ heq]
        rfl
  · intro c h
    rw [analyze_complexity] at h
    split at h
    · rw [Except.ok.injEq] at h
      subst h
      rfl
    · split at h
      · simp at h
      · rw [Except.ok.injEq] at h
        subst h
        rfl

/-- Claim C8, witness at the empty text under `"unknown"`: the reported line
count is the newline count plus one, which is `1`. -/
theorem line_count_witness :
    (emptyResult "unknown" []).line_count = countNl [] + 1 ∧
    (emptyResult "unknown" []).line_count = 1 :=
  ⟨(line_count_is_newlines_plus_one [] "unknown").1 (emptyResult "unknown" []) (by decide),
   by decide⟩

/-- Claim C9 (confirmed).  In any result `parse_code` returns, no line
number occurs both among the comment entries and among the structural
entities: the comment rule consumes its line before any classifier runs. -/
theorem comment_entity_exclusive (text : List Char) (lang : String) (r : ParseResult)
    (h : parse_code text lang = .ok r) :
    ∀ m, m ∈ commentLineNums r → m ∉ entityLineNums r := by
  rw [parse_code] at h
  split at h
  · rw [Except.ok.injEq] at h
    subst h
    intro m hm
    simp [commentLineNums, emptyResult] at hm
  · split at h
    · simp at h
    · rename_i r2 heq
      rw [Except.ok.injEq] at h
      subst h
      have hsep := runLines_separation lang (registryComment lang) (splitNl text) 0
        (emptyResult lang text) r2 heq
        (by intro m hm; simp [commentLineNums, emptyResult] at hm)
        (by intro m hm; simp [entityLineNums, emptyResult] at hm)
        (by intro m hm; simp [commentLineNums, emptyResult] at hm)
      intro m hm
      rw [commentLineNums_checkForIssues] at hm
      rw [entityLineNums_checkForIssues]
      exact hsep.2.2 m hm

/-- Claim C9, witness: in `"# c\nx = 1"` under python the comment line `1`
is not among the entity lines (which are exactly line `2`, the variable). -/
theorem comment_entity_exclusive_witness :
    (1 : Nat) ∉ entityLineNums ⟨"python", 2, [], [], [], [⟨2⟩], [⟨1, "# c".toList⟩], []⟩ :=
  comment_entity_exclusive ("# c\nx = 1".toList) "python"
    ⟨"python", 2, [], [], [], [⟨2⟩], [⟨1, "# c".toList⟩], []⟩ (by decide) 1 (by decide)

/-- Python `split('\n')` produces one more piece than there are newlines. -/
theorem splitNl_length (s : List Char) : (splitNl s).length = countNl s + 1 := by
  induction s with
  | nil => rfl
  | cons c t ih =>
    by_cases hc : c = '\n'
    · simp [splitNl, countNl, hc, ih]
      omega
    · simp only [splitNl, countNl, if_neg hc]
      cases hs : splitNl t with
      | nil =>
        rw [hs] at ih
        simp at ih
      | cons hd rest =>
        rw [hs] at ih
        simp only [List.length_cons] at ih ⊢
        omega

/-- The running maximum of the nesting scan only grows. -/
theorem nestGo_le (cm : Option (List Char)) :
    ∀ (lines : List (List Char)) (maxDepth cur : Int) (prev : Nat),
      maxDepth ≤ nestGo cm lines maxDepth cur prev := by
  intro lines
  induction lines with
  | nil =>
    intro maxDepth cur prev
    rw [nestGo]
  | cons l rest ih =>
    intro maxDepth cur prev
    rw [nestGo]
    split
    · exact ih maxDepth cur prev
    · exact le_trans (le_max_left _ _) (ih _ _ _)

/-- A parse result never holds more comment entries than the text has
lines. -/
theorem parse_comments_le (text : List Char) (lang : String) (p : ParseResult)
    (h : parse_code text lang = .ok p) : p.comments.length ≤ countNl text + 1 := by
  rw [parse_code] at h
  split at h
  · rw [Except.ok.injEq] at h
    subst h
    simp [emptyResult]
  · split at h
    · simp at h
    · rename_i r2 heq
      rw [Except.ok.injEq] at h
      subst h
      have hlen := runLines_comments_len lang (registryComment lang) (splitNl text) 0
        (emptyResult lang text) r2 heq
      have hc : (checkForIssues text lang r2).comments.length = r2.comments.length := rfl
      rw [hc]
      rw [splitNl_length] at hlen
      simpa [emptyResult] using hlen

/-- Claim C5, counterexample.  Under the `"unknown"` tag the report's
cyclomatic complexity is `0`, not at least `1`, so the invariant does not
hold for every language tag. -/
theorem unknown_report_cyclomatic_zero :
    analyze_complexity ("x".toList) "unknown" = .ok ⟨0, 0, 0, 0, 1, 0⟩ ∧ ¬(1 ≤ (0 : Nat)) := by
  constructor
  · decide
  · decide

/-- Claim C5, amended: for every language tag other than `"unknown"`,
whenever `analyze_complexity` returns a report (for java inputs it can
instead raise, see the C1 bug), that report has cyclomatic complexity at
least `1`, non-negative nesting depth, and a comment ratio in `[0, 1]` —
the depth counter may dip below zero mid-scan but the reported maximum
starts at `0` and only grows. -/
theorem complexity_report_invariants (text : List Char) (lang : String) (c : ComplexityReport)
    (hlang : lang ≠ "unknown") (h : analyze_complexity text lang = .ok c) :
    1 ≤ c.cyclomatic_complexity ∧ 0 ≤ c.nesting_depth ∧
    0 ≤ c.comment_ratio ∧ c.comment_ratio ≤ 1 := by
  rw [analyze_complexity, if_neg hlang] at h
  split at h
  · simp at h
  · rename_i parsed heq
    rw [Except.ok.injEq] at h
    subst h
    have hpos : 0 < countNl text + 1 := Nat.succ_pos _
    have hratio :
        (if 0 < countNl text + 1 then
            (parsed.comments.length : Rat) / ((countNl text + 1 : Nat) : Rat) else 0) =
          (parsed.comments.length : Rat) / ((countNl text + 1 : Nat) : Rat) := if_pos hpos
    refine ⟨Nat.le_add_right 1 _, nestGo_le _ _ 0 0 0, ?_, ?_⟩
    · show (0 : Rat) ≤ _
      rw [hratio]
      positivity
    · show _ ≤ (1 : Rat)
      rw [hratio]
      rw [div_le_one (by positivity)]
      exact_mod_cast parse_comments_le text lang parsed heq

/-- Claim C5, witness at `"x = 1"` under python: the returned report is
`⟨1, 0, 0, 0, 1, 0⟩` and satisfies all three invariants. -/
theorem complexity_report_invariants_witness :
    1 ≤ (⟨1, 0, 0, 0, 1, 0⟩ : ComplexityReport).cyclomatic_complexity ∧
    0 ≤ (⟨1, 0, 0, 0, 1, 0⟩ : ComplexityReport).nesting_depth ∧
    0 ≤ (⟨1, 0, 0, 0, 1, 0⟩ : ComplexityReport).comment_ratio ∧
    (⟨1, 0, 0, 0, 1, 0⟩ : ComplexityReport).comment_ratio ≤ 1 :=
  complexity_report_invariants ("x = 1".toList) "python" ⟨1, 0, 0, 0, 1, 0⟩
    (by decide)
    (by
      have hp : parse_code ("x = 1".toList) "python" =
          .ok ⟨"python", 1, [], [], [], [⟨1⟩], [], []⟩ := by decide
      rw [analyze_complexity]
      simp only [hp]
      norm_num
      decide)

/-- An unregistered tag has no comment marker (`.get` misses both times). -/
theorem registryComment_of_not_mem (lang : String) (h : lang ∉ registryKeys) :
    registryComment lang = none := by
  rw [registryComment]
  have hnone : registry.find? (fun p => p.1 == lang) = none := by
    rw [List.find?_eq_none]
    intro p hp
    simp only [beq_iff_eq]
    intro hezq
    exact h (hezq ▸ List.mem_map.mpr ⟨p, hp, rfl⟩)
  rw [hnone]

/-- An unregistered tag differs from every tag that has a dedicated
classifier or decision-keyword list. -/
theorem neq_of_not_mem (lang : String) (h : lang ∉ registryKeys) :
    lang ≠ "python" ∧ lang ≠ "javascript" ∧ lang ≠ "java" ∧ lang ≠ "c" ∧
    lang ≠ "cpp" ∧ lang ≠ "go" := by
  refine ⟨?_, ?_, ?_, ?_, ?_, ?_⟩ <;> rintro rfl <;> exact h (by decide)

/-- For an unregistered tag other than `"typescript"`, a loop step does
nothing: no comment marker exists and no classifier is dispatched. -/
theorem processLine_id (lang : String) (h : lang ∉ registryKeys) (hts : lang ≠ "typescript")
    (num : Nat) (line : List Char) (r : ParseResult) :
    processLine lang (registryComment lang) num line r = .ok r := by
  obtain ⟨h1, h2, h3, h4, h5, h6⟩ := neq_of_not_mem lang h
  rw [processLine, registryComment_of_not_mem lang h]
  simp [cmMatches, h1, h2, h3, h4, h5, h6, hts]

/-- Hence the whole scan is the identity for such tags. -/
theorem runLines_id (lang : String) (h : lang ∉ registryKeys) (hts : lang ≠ "typescript") :
    ∀ (lines : List (List Char)) (idx : Nat) (r : ParseResult),
      runLines lang (registryComment lang) idx lines r = .ok r := by
  intro lines
  induction lines with
  | nil =>
    intro idx r
    rfl
  | cons l rest ih =>
    intro idx r
    rw [runLines, processLine_id lang h hts]
    exact ih (idx + 1) r

/-- Claim C10, counterexample.  The claim says an unregistered tag yields a
result with only `line_count` populated; but the cross-language issue rules
still run, so `parse_code "TODO" "zig"` carries a `"todo"` finding. -/
theorem unregistered_parse_issue_nonempty :
    parse_code ("TODO".toList) "zig" =
      .ok ⟨"zig", 1, [], [], [], [], [], [⟨"todo", 1⟩]⟩ ∧
    ([(⟨"todo", 1⟩ : Issue)] : List Issue) ≠ [] := by
  constructor
  · decide
  · decide

/-- Claim C10, amended: for a tag that is neither `"unknown"`, nor
registered, nor `"typescript"` (which, though unregistered, dispatches to
the javascript classifier and the javascript issue rules), `parse_code`
leaves every comment and entity list empty with `line_count` the newline
count plus one, though the cross-language issue rules may still populate
`potential_issues`; and `analyze_complexity` does not short-circuit: it
falls back to the javascript decision-keyword list (so cyclomatic
complexity is at least `1`) and runs the nesting scan with no comment
marker, skipping only blank lines. -/
theorem unregistered_language_behavior (text : List Char) (lang : String)
    (hreg : lang ∉ registryKeys) (hunk : lang ≠ "unknown") (hts : lang ≠ "typescript") :
    (∀ r, parse_code text lang = .ok r →
      r.functions = [] ∧ r.classes = [] ∧ r.imports = [] ∧ r.vars = [] ∧
      r.comments = [] ∧ r.line_count = countNl text + 1) ∧
    (∀ c, analyze_complexity text lang = .ok c →
      c.cyclomatic_complexity = 1 + (jsDecisionLits.map (fun p => countWB p text)).sum ∧
      1 ≤ c.cyclomatic_complexity ∧
      c.nesting_depth = nestingScan none (splitNl text)) := by
  have hid := runLines_id lang hreg hts (splitNl text) 0 (emptyResult lang text)
  have hp : parse_code text lang = .ok (checkForIssues text lang (emptyResult lang text)) := by
    rw [parse_code, if_neg hunk, hid]
  have hdec : decisionLitsFor lang = jsDecisionLits := by
    obtain ⟨h1, h2, h3, h4, h5, h6⟩ := neq_of_not_mem lang hreg
    rw [decisionLitsFor]
    simp [h1, h2, h3, h4, h5, h6]
  constructor
  · intro r h
    rw [hp, Except.ok.injEq] at h
    subst h
    exact ⟨rfl, rfl, rfl, rfl, rfl, rfl⟩
  · intro c h
    rw [analyze_complexity, if_neg hunk, hp] at h
    simp only [Except.ok.injEq] at h
    subst h
    refine ⟨?_, ?_, ?_⟩
    · rw [hdec]
    · exact Nat.le_add_right 1 _
    · rw [registryComment_of_not_mem lang hreg]

/-- Claim C10, witness at text `"TODO"` under the unregistered tag
`"zig"`. -/
theorem unregistered_language_witness :
    (⟨"zig", 1, [], [], [], [], [], [⟨"todo", 1⟩]⟩ : ParseResult).functions = [] ∧
    (⟨"zig", 1, [], [], [], [], [], [⟨"todo", 1⟩]⟩ : ParseResult).classes = [] ∧
    (⟨"zig", 1, [], [], [], [], [], [⟨"todo", 1⟩]⟩ : ParseResult).imports = [] ∧
    (⟨"zig", 1, [], [], [], [], [], [⟨"todo", 1⟩]⟩ : ParseResult).vars = [] ∧
    (⟨"zig", 1, [], [], [], [], [], [⟨"todo", 1⟩]⟩ : ParseResult).comments = [] ∧
    (⟨"zig", 1, [], [], [], [], [], [⟨"todo", 1⟩]⟩ : ParseResult).line_count =
      countNl ("TODO".toList) + 1 :=
  (unregistered_language_behavior ("TODO".toList) "zig" (by decide) (by decide) (by decide)).1
    ⟨"zig", 1, [], [], [], [], [], [⟨"todo", 1⟩]⟩ (by decide)

/-- Two prefixes of the same list are comparable; if neither extends the
other the situation is impossible. -/
theorem prefix_clash (a b fl : List Char) (ha : a.isPrefixOf fl) (hb : b.isPrefixOf fl)
    (hab : ¬ a.isPrefixOf b) (hba : ¬ b.isPrefixOf a) : False := by
  rcases List.prefix_or_prefix_of_prefix (List.isPrefixOf_iff_prefix.mp ha)
    (List.isPrefixOf_iff_prefix.mp hb) with hpre | hpre
  · exact hab (List.isPrefixOf_iff_prefix.mpr hpre)
  · exact hba (List.isPrefixOf_iff_prefix.mpr hpre)

/-- Claim C7 (confirmed).  Whenever the first line carries one of the
interpreter markers (or the `<?php` opener), detection returns that
language at once, whatever the rest of the text holds. -/
theorem detect_fastpath (text : List Char) :
    (("#!/bin/bash".toList).isPrefixOf ((splitNl text).headD []) →
      detect_language text = "bash") ∧
    (("#!/bin/sh".toList).isPrefixOf ((splitNl text).headD []) →
      detect_language text = "bash") ∧
    (("#!/usr/bin/env python".toList).isPrefixOf ((splitNl text).headD []) →
      detect_language text = "python") ∧
    (("#!/usr/bin/env node".toList).isPrefixOf ((splitNl text).headD []) →
      detect_language text = "javascript") ∧
    (("<?php".toList).isPrefixOf ((splitNl text).headD []) →
      detect_language text = "php") := by
  refine ⟨fun h => ?_, fun h => ?_, fun h => ?_, fun h => ?_, fun h => ?_⟩
  · simp only [detect_language]
    rw [if_pos (Or.inl h)]
  · simp only [detect_language]
    rw [if_pos (Or.inr h)]
  · simp only [detect_language]
    rw [if_neg, if_pos h]
    rintro (hc | hc)
    · exact prefix_clash _ _ _ hc h (by decide) (by decide)
    · exact prefix_clash _ _ _ hc h (by decide) (by decide)
  · simp only [detect_language]
    rw [if_neg, if_neg, if_pos h]
    · intro hc
      exact prefix_clash _ _ _ hc h (by decide) (by decide)
    · rintro (hc | hc)
      · exact prefix_clash _ _ _ hc h (by decide) (by decide)
      · exact prefix_clash _ _ _ hc h (by decide) (by decide)
  · simp only [detect_language]
    rw [if_neg, if_neg, if_neg, if_pos h]
    · intro hc
      exact prefix_clash _ _ _ hc h (by decide) (by decide)
    · intro hc
      exact prefix_clash _ _ _ hc h (by decide) (by decide)
    · rintro (hc | hc)
      · exact prefix_clash _ _ _ hc h (by decide) (by decide)
      · exact prefix_clash _ _ _ hc h (by decide) (by decide)

/-- Claim C7, witness: a bash shebang followed by javascript-looking content
still detects as bash. -/
theorem detect_fastpath_witness :
    detect_language ("#!/bin/bash\nfunction f() ;;".toList) = "bash" :=
  (detect_fastpath ("#!/bin/bash\nfunction f() ;;".toList)).1 (by decide)

/-- Folding `max` over scores never drops below the seed. -/
theorem le_foldl_max (l : List (String × Nat)) :
    ∀ init : Nat, init ≤ l.foldl (fun a q => max a q.2) init := by
  induction l with
  | nil =>
    intro init
    exact le_refl init
  | cons q rest ih =>
    intro init
    rw [List.foldl_cons]
    exact le_trans (le_max_left _ _) (ih _)

/-- Python's first-maximum fold computes the maximum of the scores, and the
element it returns is the first list element carrying that maximum. -/
theorem pickMax_spec (l : List (String × Nat)) :
    ∀ p : String × Nat,
      (pickMax p l).2 = l.foldl (fun a q => max a q.2) p.2 ∧
      (p :: l).find? (fun q => q.2 == (pickMax p l).2) = some (pickMax p l) := by
  induction l with
  | nil =>
    intro p
    refine ⟨rfl, ?_⟩
    rw [pickMax, List.find?_cons_of_pos]
    simp
  | cons q rest ih =>
    intro p
    rw [pickMax]
    by_cases hlt : p.2 < q.2
    · rw [if_pos hlt]
      obtain ⟨ih1, ih2⟩ := ih q
      have hmax : max p.2 q.2 = q.2 := Nat.max_eq_right (le_of_lt hlt)
      refine ⟨by rw [ih1, List.foldl_cons, hmax], ?_⟩
      have hb : q.2 ≤ (pickMax q rest).2 := ih1 ▸ le_foldl_max rest q.2
      have hp : p.2 ≠ (pickMax q rest).2 := by omega
      rw [List.find?_cons_of_neg]
      · exact ih2
      · simp [hp]
    · rw [if_neg hlt]
      obtain ⟨ih1, ih2⟩ := ih p
      have hqp : q.2 ≤ p.2 := le_of_not_lt hlt
      have hmax : max p.2 q.2 = p.2 := Nat.max_eq_left hqp
      refine ⟨by rw [ih1, List.foldl_cons, hmax], ?_⟩
      by_cases hpb : p.2 = (pickMax p rest).2
      · have hfp : (p :: rest).find? (fun x => x.2 == (pickMax p rest).2) = some p := by
          rw [List.find?_cons_of_pos]
          simp [hpb]
        have hbp : pickMax p rest = p := by
          rw [hfp] at ih2
          exact ((Option.some.injEq _ _).mp ih2).symm
        rw [List.find?_cons_of_pos _ (by simp [hpb]), hbp]
      · have hple : p.2 ≤ (pickMax p rest).2 := ih1 ▸ le_foldl_max rest p.2
        have hq : q.2 ≠ (pickMax p rest).2 := by omega
        rw [List.find?_cons_of_neg _ (by simp [hpb]), List.find?_cons_of_neg _ (by simp [hq])]
        rw [List.find?_cons_of_neg _ (by simp [hpb])] at ih2
        exact ih2

/-- Claim C6 (confirmed).  When no first-line fast path applies,
`detect_language` agrees with the spec's description: score every
registered language by `2 ×` keyword-occurrence counts plus its flat `+5`
bonus conditions, return the earliest-registered language with the maximum
score, and return `"unknown"` when the maximum is `0`. -/
theorem detect_matches_spec (text : List Char)
    (h1 : ¬(("#!/bin/bash".toList).isPrefixOf ((splitNl text).headD []) ∨
        ("#!/bin/sh".toList).isPrefixOf ((splitNl text).headD [])))
    (h2 : ¬("#!/usr/bin/env python".toList).isPrefixOf ((splitNl text).headD []))
    (h3 : ¬("#!/usr/bin/env node".toList).isPrefixOf ((splitNl text).headD []))
    (h4 : ¬("<?php".toList).isPrefixOf ((splitNl text).headD [])) :
    detect_language text = specDetectScored text := by
  simp only [detect_language, specDetectScored]
  rw [if_neg h1, if_neg h2, if_neg h3, if_neg h4]
  cases hsc : languageScores text with
  | nil =>
    rw [languageScores, registry] at hsc
    simp at hsc
  | cons p rest =>
    dsimp only
    obtain ⟨hb2, hbfind⟩ := pickMax_spec rest p
    have hm : ((p :: rest).map (fun q => q.2)).foldl max 0 = (pickMax p rest).2 := by
      rw [List.map_cons, List.foldl_cons, Nat.zero_max, List.foldl_map, hb2]
    rw [hm]
    by_cases hz : (pickMax p rest).2 = 0
    · rw [if_pos hz, if_neg (by omega : ¬ 0 < (pickMax p rest).2)]
    · rw [if_neg hz, if_pos (by omega : 0 < (pickMax p rest).2), hbfind]

/-- Claim C6, witness: `"def f():"` triggers no fast path, and both the
implementation and the spec's scoring select python (keyword score `2` plus
bonus `5`, the strict maximum). -/
theorem detect_matches_spec_witness :
    detect_language ("def f():".toList) = specDetectScored ("def f():".toList) ∧
    detect_language ("def f():".toList) = "python" ∧
    detect_language [] = "unknown" :=
  ⟨detect_matches_spec ("def f():".toList) (by decide) (by decide) (by decide) (by decide),
   by decide, by decide⟩
